import Mathlib

/-!
Verification of the transit key-policy path handlers
(`builtin/logical/transit/path_keys.go`) against the natural-language
specification of the key-policy lifecycle manager.

The handlers in `path_keys.go` are embedded faithfully below.  The
lock-manager collaborator (`keysutil.LockManager`, package
`helper/keysutil`) is part of the repository but its source is not in
scope here, so its operations are modelled from the specification
(sections 4.3 and 5); each such definition is marked
`Modelled from the spec:`.
-/

namespace Transit

/-- The closed enumeration of supported key types
(`keysutil.KeyType_*` as used by the `switch` in `pathPolicyWrite`). -/
inductive KeyType
  | aes256gcm96
  | ecdsaP256
  | ed25519
  | rsa2048
  | rsa4096
  deriving DecidableEq, Repr

/-- In-memory policy object for one named key (spec section 3;
`keysutil.Policy` fields relevant to these handlers). -/
structure Policy where
  name : String
  keyType : KeyType
  derived : Bool
  convergent : Bool
  exportable : Bool
  latestVersion : Nat
  deriving DecidableEq, Repr

/-- `keysutil.PolicyRequest` as built by `pathPolicyWrite`
(the `Storage` field is carried separately as explicit state). -/
structure PolicyRequest where
  name : String
  keyType : KeyType
  derived : Bool
  convergent : Bool
  exportable : Bool
  deriving DecidableEq, Repr

/-- Errors surfaced through the second (`error`) return value of a
handler.  `invalidRequest` is `logical.ErrInvalidRequest`; everything
else is carried as a message (`fmt.Errorf`, storage failures). -/
inductive VaultErr
  | invalidRequest
  | other (msg : String)
  deriving DecidableEq, Repr

/-- Payload of a `logical.Response`: an error message
(`logical.ErrorResponse`), a key listing (`logical.ListResponse`) or
the policy map of a read. -/
inductive RespData
  | errMsg (msg : String)
  | keys (ks : List String)
  | policyInfo (keyType : KeyType) (derived convergent exportable : Bool)
      (latestVersion : Nat)
  deriving DecidableEq, Repr

/-- `logical.Response`: optional data plus accumulated warnings. -/
structure LResponse where
  data : Option RespData := none
  warnings : List String := []
  deriving DecidableEq, Repr

/-- `logical.ErrorResponse(msg)`. -/
def errorResponse (msg : String) : LResponse :=
  { data := some (.errMsg msg) }

/-- `logical.ListResponse(entries)`. -/
def listResponse (ks : List String) : LResponse :=
  { data := some (.keys ks) }

/-- `(&logical.Response{}).AddWarning(w)`. -/
def addWarning (r : LResponse) (w : String) : LResponse :=
  { r with warnings := r.warnings ++ [w] }

/-- Durable storage collaborator state: the serialized policies living
under the `policy/` prefix, plus fault flags for its `List` and `Get`
operations (spec section 6, outbound storage contract). -/
structure Storage where
  policies : List (String × Policy)
  listFails : Bool := false
  getFails : Bool := false
  deriving DecidableEq, Repr

/-- Combined system state threaded through a handler: durable storage,
the lock manager's in-memory cache, and a counter of lock-manager
invocations (used to express that validation failures never touch the
lock manager). -/
structure SysState where
  storage : Storage
  cache : List (String × Policy) := []
  lmCalls : Nat := 0
  deriving DecidableEq, Repr

/-- Result of one handler invocation: the two Go return values, the
resulting system state, and instrumentation — how many per-name locks
the call acquired and released, whether the upsert reported an
existing key (`!upserted`), and how many times `Policy.Map` ran. -/
structure HandlerOut where
  resp : Option LResponse
  err : Option VaultErr
  st : SysState
  locksAcquired : Nat := 0
  locksReleased : Nat := 0
  wasCreated : Option Bool := none
  mapCalls : Nat := 0
  deriving DecidableEq, Repr

/-- Request fields as delivered by the framework (`framework.FieldData`).
`type` is kept optional so that the schema default
(`Default: "aes256-gcm96"`, `pathKeys` field schema) can be studied;
the other fields use their Go zero-value defaults. -/
structure FieldData where
  name : String := ""
  type : Option String := none
  derived : Bool := false
  convergent_encryption : Bool := false
  exportable : Bool := false
  context : String := ""
  deriving DecidableEq, Repr

/-- `d.Get("type").(string)`: the framework substitutes the schema
default `"aes256-gcm96"` when the caller omits the field. -/
def FieldData.getType (d : FieldData) : String :=
  d.type.getD "aes256-gcm96"

/-- The `switch keyType` cascade of `pathPolicyWrite` (lines 123-136),
mapping the request's type string to the internal enumeration. -/
def keyTypeOf (s : String) : Option KeyType :=
  if s = "aes256-gcm96" then some .aes256gcm96
  else if s = "ecdsa-p256" then some .ecdsaP256
  else if s = "ed25519" then some .ed25519
  else if s = "rsa-2048" then some .rsa2048
  else if s = "rsa-4096" then some .rsa4096
  else none

/-- Look a name up in an association list of policies. -/
def lookupPolicy (l : List (String × Policy)) (n : String) : Option Policy :=
  match l with
  | [] => none
  | (k, p) :: rest => if k = n then some p else lookupPolicy rest n

/-- Modelled from the spec: the lock manager's policy load — the cache
is consulted first and the durable storage collaborator is the source
of truth on a miss (section 5, shared-resource policy); a storage read
fault is surfaced as an error. -/
def loadPolicy (st : SysState) (n : String) : Except VaultErr (Option Policy) :=
  match lookupPolicy st.cache n with
  | some p => .ok (some p)
  | none =>
    if st.storage.getFails then .error (.other "failed to read policy")
    else .ok (lookupPolicy st.storage.policies n)

/-- Modelled from the spec: construction of a fresh policy with one
generated key version (section 4.3, CreateOrGet creation path). -/
def newPolicy (req : PolicyRequest) : Policy :=
  { name := req.name
    keyType := req.keyType
    derived := req.derived
    convergent := req.convergent
    exportable := req.exportable
    latestVersion := 1 }

/-- Modelled from the spec: `keysutil.LockManager.GetPolicyUpsert`
(section 4.3, CreateOrGet).  Missing from the sources in scope; per the
spec it returns the existing policy under a shared lock with
`upserted = false` when the name exists, otherwise creates the policy,
writes it durably, caches it and returns `upserted = true`; a storage
read fault is fatal to the call with no lock left held.  Result order
matches the Go call site: `(p, lock, upserted, err)` plus the new
state. -/
def getPolicyUpsert (st : SysState) (req : PolicyRequest) :
    Option Policy × Bool × Bool × Option VaultErr × SysState :=
  let st1 : SysState := { st with lmCalls := st.lmCalls + 1 }
  match loadPolicy st1 req.name with
  | .error e => (none, false, false, some e, st1)
  | .ok (some p) => (some p, true, false, none, st1)
  | .ok none =>
    let p := newPolicy req
    (some p, true, true, none,
      { st1 with
          storage := { st1.storage with
                        policies := (req.name, p) :: st1.storage.policies }
          cache := (req.name, p) :: st1.cache })

/-- Modelled from the spec: `keysutil.LockManager.GetPolicyShared`
(section 4.3, GetShared).  Missing from the sources in scope; per the
spec it acquires a shared lock when the policy exists and returns
nothing — not an error — when the name is unknown.  Result order
matches the Go call site: `(p, lock, err)` plus the new state. -/
def getPolicyShared (st : SysState) (n : String) :
    Option Policy × Bool × Option VaultErr × SysState :=
  let st1 : SysState := { st with lmCalls := st.lmCalls + 1 }
  match loadPolicy st1 n with
  | .error e => (none, false, some e, st1)
  | .ok (some p) => (some p, true, none, st1)
  | .ok none => (none, false, none, st1)

/-- Value of one base64 alphabet character of the standard encoding
(`encoding/base64.StdEncoding`). -/
def b64Index (c : Char) : Option Nat :=
  if 'A' ≤ c ∧ c ≤ 'Z' then some (c.toNat - 65)
  else if 'a' ≤ c ∧ c ≤ 'z' then some (c.toNat - 71)
  else if '0' ≤ c ∧ c ≤ '9' then some (c.toNat + 4)
  else if c = '+' then some 62
  else if c = '/' then some 63
  else none

/-- Decode a padded base64 character stream four characters at a time,
as `base64.StdEncoding.Decode` does: `=` is legal only as padding at
the very end (one or two characters), any other character must be in
the alphabet, and the total length must be a multiple of four. -/
def b64DecodeQuads : List Char → Option (List Nat)
  | [] => some []
  | a :: b :: c :: d :: rest =>
    match b64Index a, b64Index b with
    | some x, some y =>
      if c = '=' then
        if d = '=' ∧ rest = [] then some [(x * 4 + y / 16) % 256]
        else none
      else
        match b64Index c with
        | some z =>
          if d = '=' then
            if rest = [] then
              some [(x * 4 + y / 16) % 256, (y * 16 + z / 4) % 256]
            else none
          else
            match b64Index d with
            | some w =>
              match b64DecodeQuads rest with
              | some tail =>
                some ((x * 4 + y / 16) % 256 ::
                      (y * 16 + z / 4) % 256 ::
                      (z * 64 + w) % 256 :: tail)
              | none => none
            | none => none
        | none => none
    | _, _ => none
  | _ => none

/-- `base64.StdEncoding.DecodeString`: newlines are skipped, then the
remaining characters are decoded in padded quads; `none` is Go's
`CorruptInputError`. -/
def base64Decode (s : String) : Option (List Nat) :=
  b64DecodeQuads (s.data.filter (fun c => c ≠ '\n' ∧ c ≠ '\r'))

/-- Modelled from the spec: `keysutil.Policy.Map` — the read-response
shape of section 6: key type, derivation flag, convergence flag,
exportability flag and latest version number (context-derived public
key material is out of scope of the embedded fields). -/
def policyMap (p : Policy) (_context : List Nat) : Except VaultErr RespData :=
  .ok (.policyInfo p.keyType p.derived p.convergent p.exportable p.latestVersion)

/-- `b.pathKeysList` (lines 94-102): list the `policy/` prefix of the
durable storage collaborator and wrap it in a list response;
a listing failure propagates as the handler's error. -/
def pathKeysList (st : SysState) : HandlerOut :=
  if st.storage.listFails then
    { resp := none, err := some (.other "storage list failed"), st := st }
  else
    { resp := some (listResponse (st.storage.policies.map Prod.fst))
      err := none, st := st }

/-- Continuation of `pathPolicyWrite` after the `b.lm.GetPolicyUpsert`
call (lines 138-154), parameterized by the collaborator's four results
so that every exit path is covered for any outcome.  The `defer
lock.RUnlock()` guarded by `lock != nil` is reflected in the lock
instrumentation of every return.  NOTE (faithful to the source): the
warning response is built but the function returns `nil, nil`,
discarding it. -/
def writeAfterUpsert (name : String) (st1 : SysState)
    (p : Option Policy) (lock : Bool) (upserted : Bool)
    (err : Option VaultErr) : HandlerOut :=
  let acq : Nat := if lock then 1 else 0
  match err with
  | some e =>
    { resp := none, err := some e, st := st1
      locksAcquired := acq, locksReleased := acq }
  | none =>
    match p with
    | none =>
      { resp := none
        err := some (.other "error generating key: returned policy was nil")
        st := st1, locksAcquired := acq, locksReleased := acq }
    | some _ =>
      let resp : LResponse := {}
      let _resp :=
        if !upserted then addWarning resp ("key " ++ name ++ " already existed")
        else resp
      { resp := none, err := none, st := st1
        locksAcquired := acq, locksReleased := acq
        wasCreated := some upserted }

/-- `b.pathPolicyWrite` (lines 104-155): read the fields, reject
convergent-without-derived, resolve the key type through the `switch`
cascade, then call the lock manager and finish via
`writeAfterUpsert`. -/
def pathPolicyWrite (st : SysState) (d : FieldData) : HandlerOut :=
  let name := d.name
  let derived := d.derived
  let convergent := d.convergent_encryption
  let keyType := d.getType
  let exportable := d.exportable
  if !derived && convergent then
    { resp := some (errorResponse
        "convergent encryption requires derivation to be enabled")
      err := none, st := st }
  else
    match keyTypeOf keyType with
    | none =>
      { resp := some (errorResponse ("unknown key type " ++ keyType))
        err := some .invalidRequest, st := st }
    | some kt =>
      let polReq : PolicyRequest :=
        { name := name, keyType := kt, derived := derived
          convergent := convergent, exportable := exportable }
      match getPolicyUpsert st polReq with
      | (p, lock, upserted, err, st1) =>
        writeAfterUpsert name st1 p lock upserted err

/-- Continuation of `pathPolicyRead` after the `b.lm.GetPolicyShared`
call (lines 161-188), parameterized by the collaborator's results.
The `defer lock.RUnlock()` guarded by `lock != nil` is reflected in
the lock instrumentation of every return; `mapCalls` counts the
`p.Map(context)` invocations. -/
def readAfterGet (d : FieldData) (st1 : SysState)
    (p : Option Policy) (lock : Bool) (err : Option VaultErr) : HandlerOut :=
  let acq : Nat := if lock then 1 else 0
  match err with
  | some e =>
    { resp := none, err := some e, st := st1
      locksAcquired := acq, locksReleased := acq }
  | none =>
    match p with
    | none =>
      { resp := none, err := none, st := st1
        locksAcquired := acq, locksReleased := acq }
    | some pol =>
      let contextRaw := d.context
      let decoded : Option (Option (List Nat)) :=
        if contextRaw.length ≠ 0 then
          match base64Decode contextRaw with
          | some bytes => some (some bytes)
          | none => none
        else some none
      match decoded with
      | none =>
        { resp := some (errorResponse "failed to base64-decode context")
          err := some .invalidRequest, st := st1
          locksAcquired := acq, locksReleased := acq }
      | some ctx =>
        match policyMap pol (ctx.getD []) with
        | .error e =>
          { resp := none, err := some e, st := st1
            locksAcquired := acq, locksReleased := acq, mapCalls := 1 }
        | .ok data =>
          { resp := some { data := some data }, err := none, st := st1
            locksAcquired := acq, locksReleased := acq, mapCalls := 1 }

/-- `b.pathPolicyRead` (lines 157-189): load the policy under a shared
lock, return the empty result if absent, decode the optional base64
context, and map the policy into the response data. -/
def pathPolicyRead (st : SysState) (d : FieldData) : HandlerOut :=
  let name := d.name
  match getPolicyShared st name with
  | (p, lock, err, st1) => readAfterGet d st1 p lock err

/-- A sample ed25519 policy named `n`, used by concrete witness
states. -/
def samplePolicy (n : String) : Policy :=
  newPolicy { name := n, keyType := .ed25519, derived := false,
              convergent := false, exportable := false }

/-- Concrete state whose durable storage holds exactly the policy
named `a`, with an empty cache. -/
def stListPlain : SysState :=
  { storage := { policies := [("a", samplePolicy "a")] } }

/-- The same storage as `stListPlain`, but with a non-empty in-memory
cache. -/
def stListCached : SysState :=
  { storage := { policies := [("a", samplePolicy "a")] }
    cache := [("b", samplePolicy "b")] }

/-- Phase of one concurrent create-or-get caller for a fixed name.
Modelled from the spec: sections 4.3 and 5 — a caller acquires the
per-name lock, checks for an existing policy, creates one if absent
while still holding the lock, and releases the lock on the way out
with its `wasCreated` flag and the policy it observed. -/
inductive CPhase
  | start
  | locked
  | sawAbsent
  | finishing (wasCreated : Bool) (observed : Policy)
  | done (wasCreated : Bool) (observed : Policy)
  deriving DecidableEq, Repr

/-- Whether a phase is inside the critical section, i.e. between lock
acquisition and release. -/
def inCS : CPhase → Bool
  | .locked => true
  | .sawAbsent => true
  | .finishing _ _ => true
  | _ => false

/-- Whether a caller (has) reported `wasCreated = true`. -/
def isCreator : CPhase → Bool
  | .finishing true _ => true
  | .done true _ => true
  | _ => false

/-- Whether a caller finished reporting `wasCreated = false`. -/
def isDoneExisting : CPhase → Bool
  | .done false _ => true
  | _ => false

/-- Count the elements of a list satisfying a Boolean predicate. -/
def countB {α : Type _} (p : α → Bool) : List α → Nat
  | [] => 0
  | x :: xs => (if p x then 1 else 0) + countB p xs

/-- Global state of `k` concurrent create-or-get callers racing on one
name: the durable store entry for that name, the exclusive per-name
lock holder, each caller's phase, and the number of durable creations
performed so far. -/
structure CState where
  store : Option Policy
  holder : Option Nat
  callers : List CPhase
  creations : Nat
  deriving DecidableEq, Repr

/-- Initial racing state: no policy, lock free, `k` callers about to
issue identical create-or-get requests, nothing created. -/
def initState (k : Nat) : CState :=
  { store := none, holder := none
    callers := List.replicate k CPhase.start, creations := 0 }

/-- Modelled from the spec: the interleaved small-step semantics of
`k` concurrent CreateOrGet calls with identical parameters on one
name (sections 4.3 and 5 — the creation step is exclusive and thus
serializes concurrent creators).  `pol0` is the policy any creator
would construct from the shared parameters.  Any scheduler may pick
any enabled caller at each step. -/
inductive Step (pol0 : Policy) : CState → CState → Prop
  | acquire (s : CState) (i : Nat)
      (hph : s.callers[i]? = some CPhase.start) (hl : s.holder = none) :
      Step pol0 s { s with holder := some i
                           callers := s.callers.set i CPhase.locked }
  | checkExisting (s : CState) (i : Nat) (p : Policy)
      (hph : s.callers[i]? = some CPhase.locked) (hl : s.holder = some i)
      (hs : s.store = some p) :
      Step pol0 s { s with callers := s.callers.set i (CPhase.finishing false p) }
  | checkAbsent (s : CState) (i : Nat)
      (hph : s.callers[i]? = some CPhase.locked) (hl : s.holder = some i)
      (hs : s.store = none) :
      Step pol0 s { s with callers := s.callers.set i CPhase.sawAbsent }
  | create (s : CState) (i : Nat)
      (hph : s.callers[i]? = some CPhase.sawAbsent) (hl : s.holder = some i) :
      Step pol0 s { s with store := some pol0
                           creations := s.creations + 1
                           callers := s.callers.set i (CPhase.finishing true pol0) }
  | release (s : CState) (i : Nat) (w : Bool) (p : Policy)
      (hph : s.callers[i]? = some (CPhase.finishing w p))
      (hl : s.holder = some i) :
      Step pol0 s { s with holder := none
                           callers := s.callers.set i (CPhase.done w p) }

/-- Inductive invariant of the racing system: lock holders are the
only callers in the critical section, a caller that saw the name
absent still sees it absent (it holds the lock), the store only ever
holds the one policy `pol0`, the creation count mirrors the store, and
every finished caller observed `pol0`. -/
structure Inv (pol0 : Policy) (k : Nat) (s : CState) : Prop where
  len : s.callers.length = k
  cs : ∀ (i : Nat) (ph : CPhase),
    s.callers[i]? = some ph → inCS ph = true → s.holder = some i
  absent : ∀ (i : Nat),
    s.callers[i]? = some CPhase.sawAbsent → s.store = none
  storeVal : s.store = none ∨ s.store = some pol0
  count_store : s.creations = if s.store.isSome then 1 else 0
  obs : ∀ (i : Nat) (w : Bool) (p : Policy),
    (s.callers[i]? = some (CPhase.finishing w p) ∨
      s.callers[i]? = some (CPhase.done w p)) → p = pol0 ∧ s.store = some pol0
  creators : countB isCreator s.callers = s.creations

/-- The policy the witness race's creators construct. -/
def pol0W : Policy := samplePolicy "w"

/-- Final state of the concrete two-caller witness race: caller 0
created, caller 1 observed the existing policy. -/
def concFinal : CState :=
  { store := some pol0W, holder := none
    callers := [CPhase.done true pol0W, CPhase.done false pol0W]
    creations := 1 }

/-- `loadPolicy` only reads the cache and the storage component, so the
lock manager's call counter does not affect it. -/
lemma loadPolicy_lmCalls (st : SysState) (n : String) (m : Nat) :
    loadPolicy { st with lmCalls := m } n = loadPolicy st n := rfl

/-- Lock balance of the write continuation, for every collaborator
outcome: released equals acquired, and acquired reflects exactly
whether the collaborator handed back a lock. -/
lemma writeAfterUpsert_locks (name : String) (st1 : SysState)
    (p : Option Policy) (lock upserted : Bool) (err : Option VaultErr) :
    (writeAfterUpsert name st1 p lock upserted err).locksReleased =
      (writeAfterUpsert name st1 p lock upserted err).locksAcquired ∧
    (writeAfterUpsert name st1 p lock upserted err).locksAcquired =
      (if lock then 1 else 0) := by
  cases err <;> cases p <;> simp [writeAfterUpsert]

/-- Lock balance of the read continuation, for every collaborator
outcome. -/
lemma readAfterGet_locks (d : FieldData) (st1 : SysState)
    (p : Option Policy) (lock : Bool) (err : Option VaultErr) :
    (readAfterGet d st1 p lock err).locksReleased =
      (readAfterGet d st1 p lock err).locksAcquired ∧
    (readAfterGet d st1 p lock err).locksAcquired =
      (if lock then 1 else 0) := by
  cases err <;> cases p <;>
    simp only [readAfterGet] <;>
    repeat' first
      | rfl
      | constructor
      | split

/-- Setting index `i` trades the old element's contribution to a
Boolean count for the new element's. -/
lemma countB_set {α : Type _} (p : α → Bool) (l : List α) (i : Nat) (a b : α)
    (h : l[i]? = some a) :
    countB p (l.set i b) + (if p a then 1 else 0) =
      countB p l + (if p b then 1 else 0) := by
  induction l generalizing i with
  | nil => simp at h
  | cons x xs ih =>
    cases i with
    | zero =>
      simp only [List.getElem?_cons_zero, Option.some.injEq] at h
      subst h
      simp only [List.set, countB]
      ring
    | succ n =>
      simp only [List.getElem?_cons_succ] at h
      have ih2 := ih n h
      simp only [List.set, countB]
      rw [Nat.add_assoc, Nat.add_assoc, ih2]

/-- Two Boolean predicates that split every element of a list between
them count up to the list's length. -/
lemma countB_add_eq_length {α : Type _} (p q : α → Bool) (l : List α)
    (h : ∀ a ∈ l, (p a = true ∧ q a = false) ∨ (p a = false ∧ q a = true)) :
    countB p l + countB q l = l.length := by
  induction l with
  | nil => rfl
  | cons x xs ih =>
    have hx := h x (List.mem_cons_self x xs)
    have ih2 := ih (fun a ha => h a (List.mem_cons_of_mem x ha))
    rcases hx with ⟨h1, h2⟩ | ⟨h1, h2⟩ <;>
      simp [countB, h1, h2] <;>
      omega

/-- A predicate false on `a` counts no elements of `replicate k a`. -/
lemma countB_replicate_zero {α : Type _} (p : α → Bool) (k : Nat) (a : α)
    (hp : p a = false) : countB p (List.replicate k a) = 0 := by
  induction k with
  | zero => rfl
  | succ n ih => simp [List.replicate_succ, countB, hp, ih]

/-- Reading back the index just set. -/
lemma set_get_same {α : Type _} (l : List α) (i : Nat) (a b : α)
    (h : l[i]? = some a) : (l.set i b)[i]? = some b := by
  have hlt : i < l.length := (List.getElem?_eq_some.mp h).1
  simp [List.getElem?_set_self, hlt]

/-- Reading any other index after a set. -/
lemma set_get_other {α : Type _} (l : List α) (i j : Nat) (b : α)
    (hne : i ≠ j) : (l.set i b)[j]? = l[j]? :=
  List.getElem?_set_ne hne

/-- The initial racing state satisfies the invariant. -/
lemma inv_init (pol0 : Policy) (k : Nat) : Inv pol0 k (initState k) := by
  refine ⟨?_, ?_, ?_, ?_, ?_, ?_, ?_⟩
  · simp [initState]
  · intro i ph h hcs
    rcases List.getElem?_eq_some.mp h with ⟨hl, hv⟩
    have hstart : ph = CPhase.start := by
      simpa [initState] using hv.symm
    subst hstart
    simp [inCS] at hcs
  · intro i h
    rcases List.getElem?_eq_some.mp h with ⟨hl, hv⟩
    simp [initState] at hv
  · exact Or.inl rfl
  · rfl
  · intro i w p hor
    rcases hor with h | h <;>
      rcases List.getElem?_eq_some.mp h with ⟨hl, hv⟩ <;>
      simp [initState] at hv
  · exact countB_replicate_zero isCreator k CPhase.start rfl

/-- Every step of the racing system preserves the invariant. -/
lemma inv_step (pol0 : Policy) (k : Nat) (s s2 : CState)
    (hinv : Inv pol0 k s) (hstep : Step pol0 s s2) : Inv pol0 k s2 := by
  cases hstep with
  | acquire i hph hl =>
    refine ⟨?_, ?_, ?_, hinv.storeVal, hinv.count_store, ?_, ?_⟩
    · show (s.callers.set i CPhase.locked).length = k
      simpa using hinv.len
    · intro j ph hj hcs
      show some i = some j
      by_cases hij : i = j
      · exact congrArg some hij
      · rw [set_get_other _ _ _ _ hij] at hj
        exact absurd (hinv.cs j ph hj hcs) (by rw [hl]; intro h; cases h)
    · intro j hj
      show s.store = none
      by_cases hij : i = j
      · subst hij
        rw [set_get_same _ _ _ _ hph] at hj
        cases hj
      · rw [set_get_other _ _ _ _ hij] at hj
        exact hinv.absent j hj
    · intro j w p hor
      show p = pol0 ∧ s.store = some pol0
      by_cases hij : i = j
      · subst hij
        rcases hor with hj | hj <;> rw [set_get_same _ _ _ _ hph] at hj <;>
          cases hj
      · rcases hor with hj | hj <;> rw [set_get_other _ _ _ _ hij] at hj
        · exact hinv.obs j w p (Or.inl hj)
        · exact hinv.obs j w p (Or.inr hj)
    · show countB isCreator (s.callers.set i CPhase.locked) = s.creations
      have hc := countB_set isCreator s.callers i CPhase.start CPhase.locked hph
      simp only [isCreator] at hc
      simpa [hinv.creators] using hc
  | checkExisting i p hph hl hs =>
    have hp0 : p = pol0 := by
      rcases hinv.storeVal with h | h
      · rw [h] at hs; cases hs
      · rw [h] at hs; exact (Option.some.inj hs).symm
    refine ⟨?_, ?_, ?_, hinv.storeVal, hinv.count_store, ?_, ?_⟩
    · show (s.callers.set i (CPhase.finishing false p)).length = k
      simpa using hinv.len
    · intro j ph hj hcs
      show s.holder = some j
      by_cases hij : i = j
      · subst hij; exact hl
      · rw [set_get_other _ _ _ _ hij] at hj
        exact hinv.cs j ph hj hcs
    · intro j hj
      show s.store = none
      by_cases hij : i = j
      · subst hij
        rw [set_get_same _ _ _ _ hph] at hj
        cases hj
      · rw [set_get_other _ _ _ _ hij] at hj
        exact hinv.absent j hj
    · intro j w q hor
      show q = pol0 ∧ s.store = some pol0
      by_cases hij : i = j
      · subst hij
        rcases hor with hj | hj <;> rw [set_get_same _ _ _ _ hph] at hj
        · cases hj
          exact ⟨hp0, by rw [hs, hp0]⟩
        · cases hj
      · rcases hor with hj | hj <;> rw [set_get_other _ _ _ _ hij] at hj
        · exact hinv.obs j w q (Or.inl hj)
        · exact hinv.obs j w q (Or.inr hj)
    · show countB isCreator (s.callers.set i (CPhase.finishing false p)) =
        s.creations
      have hc := countB_set isCreator s.callers i CPhase.locked
        (CPhase.finishing false p) hph
      simp only [isCreator] at hc
      simpa [hinv.creators] using hc
  | checkAbsent i hph hl hs =>
    refine ⟨?_, ?_, ?_, hinv.storeVal, hinv.count_store, ?_, ?_⟩
    · show (s.callers.set i CPhase.sawAbsent).length = k
      simpa using hinv.len
    · intro j ph hj hcs
      show s.holder = some j
      by_cases hij : i = j
      · subst hij; exact hl
      · rw [set_get_other _ _ _ _ hij] at hj
        exact hinv.cs j ph hj hcs
    · intro j hj
      exact hs
    · intro j w q hor
      show q = pol0 ∧ s.store = some pol0
      by_cases hij : i = j
      · subst hij
        rcases hor with hj | hj <;> rw [set_get_same _ _ _ _ hph] at hj <;>
          cases hj
      · rcases hor with hj | hj <;> rw [set_get_other _ _ _ _ hij] at hj
        · exact hinv.obs j w q (Or.inl hj)
        · exact hinv.obs j w q (Or.inr hj)
    · show countB isCreator (s.callers.set i CPhase.sawAbsent) = s.creations
      have hc := countB_set isCreator s.callers i CPhase.locked
        CPhase.sawAbsent hph
      simp only [isCreator] at hc
      simpa [hinv.creators] using hc
  | create i hph hl =>
    have hstore : s.store = none := hinv.absent i hph
    have hcre0 : s.creations = 0 := by
      rw [hinv.count_store, hstore]; rfl
    refine ⟨?_, ?_, ?_, Or.inr rfl, ?_, ?_, ?_⟩
    · show (s.callers.set i (CPhase.finishing true pol0)).length = k
      simpa using hinv.len
    · intro j ph hj hcs
      show s.holder = some j
      by_cases hij : i = j
      · subst hij; exact hl
      · rw [set_get_other _ _ _ _ hij] at hj
        exact hinv.cs j ph hj hcs
    · intro j hj
      by_cases hij : i = j
      · subst hij
        rw [set_get_same _ _ _ _ hph] at hj
        cases hj
      · rw [set_get_other _ _ _ _ hij] at hj
        have h1 := hinv.cs j CPhase.sawAbsent hj rfl
        rw [hl] at h1
        exact absurd (Option.some.inj h1) hij
    · show s.creations + 1 = if (some pol0).isSome then 1 else 0
      simp [hcre0]
    · intro j w q hor
      show q = pol0 ∧ some pol0 = some pol0
      by_cases hij : i = j
      · subst hij
        rcases hor with hj | hj <;> rw [set_get_same _ _ _ _ hph] at hj
        · cases hj
          exact ⟨rfl, rfl⟩
        · cases hj
      · rcases hor with hj | hj <;> rw [set_get_other _ _ _ _ hij] at hj
        · exact absurd (hinv.obs j w q (Or.inl hj)).2 (by rw [hstore]; intro h; cases h)
        · exact absurd (hinv.obs j w q (Or.inr hj)).2 (by rw [hstore]; intro h; cases h)
    · show countB isCreator (s.callers.set i (CPhase.finishing true pol0)) =
        s.creations + 1
      have hc := countB_set isCreator s.callers i CPhase.sawAbsent
        (CPhase.finishing true pol0) hph
      simp only [isCreator] at hc
      simpa [hinv.creators] using hc
  | release i w p hph hl =>
    have hobs := hinv.obs i w p (Or.inl hph)
    refine ⟨?_, ?_, ?_, hinv.storeVal, hinv.count_store, ?_, ?_⟩
    · show (s.callers.set i (CPhase.done w p)).length = k
      simpa using hinv.len
    · intro j ph hj hcs
      show (none : Option Nat) = some j
      by_cases hij : i = j
      · subst hij
        rw [set_get_same _ _ _ _ hph] at hj
        cases hj
        simp [inCS] at hcs
      · rw [set_get_other _ _ _ _ hij] at hj
        have h1 := hinv.cs j ph hj hcs
        rw [hl] at h1
        exact absurd (Option.some.inj h1) hij
    · intro j hj
      show s.store = none
      by_cases hij : i = j
      · subst hij
        rw [set_get_same _ _ _ _ hph] at hj
        cases hj
      · rw [set_get_other _ _ _ _ hij] at hj
        exact hinv.absent j hj
    · intro j w2 q hor
      show q = pol0 ∧ s.store = some pol0
      by_cases hij : i = j
      · subst hij
        rcases hor with hj | hj <;> rw [set_get_same _ _ _ _ hph] at hj
        · cases hj
        · cases hj
          exact hobs
      · rcases hor with hj | hj <;> rw [set_get_other _ _ _ _ hij] at hj
        · exact hinv.obs j w2 q (Or.inl hj)
        · exact hinv.obs j w2 q (Or.inr hj)
    · show countB isCreator (s.callers.set i (CPhase.done w p)) = s.creations
      have hc := countB_set isCreator s.callers i (CPhase.finishing w p)
        (CPhase.done w p) hph
      cases w <;> simp only [isCreator] at hc <;>
        simpa [hinv.creators] using hc

/-- The invariant holds in every reachable state of the race. -/
lemma inv_reach (pol0 : Policy) (k : Nat) (s : CState)
    (h : Relation.ReflTransGen (Step pol0) (initState k) s) :
    Inv pol0 k s := by
  induction h with
  | refl => exact inv_init pol0 k
  | tail _ hstep ih => exact inv_step pol0 k _ _ ih hstep

/-- C1: create-or-get on an existing name succeeds (no error) with
`wasCreated = false`, but — contrary to the claim and the spec — the
caller-visible response does NOT carry the already-existed warning:
`pathPolicyWrite` builds the warning response and then returns
`nil, nil` (line 154), discarding it.  Evaluated here at the failing
input: name `orders-key` whose policy already exists. -/
theorem pathPolicyWrite_existing_drops_warning :
    (pathPolicyWrite
        { storage := { policies := [("orders-key",
            newPolicy { name := "orders-key", keyType := .aes256gcm96,
                        derived := true, convergent := true,
                        exportable := false })] } }
        { name := "orders-key", derived := true,
          convergent_encryption := true }).err = none ∧
    (pathPolicyWrite
        { storage := { policies := [("orders-key",
            newPolicy { name := "orders-key", keyType := .aes256gcm96,
                        derived := true, convergent := true,
                        exportable := false })] } }
        { name := "orders-key", derived := true,
          convergent_encryption := true }).wasCreated = some false ∧
    (pathPolicyWrite
        { storage := { policies := [("orders-key",
            newPolicy { name := "orders-key", keyType := .aes256gcm96,
                        derived := true, convergent := true,
                        exportable := false })] } }
        { name := "orders-key", derived := true,
          convergent_encryption := true }).resp = none := by
  exact ⟨rfl, rfl, rfl⟩

/-- C2: a create-or-get request with `convergent = true` and
`derived = false` fails immediately with the validation error response
(whose message begins with the quoted "convergent encryption requires
derivation"), before the lock manager or the store is touched: the
whole system state is returned unchanged and no lock is acquired. -/
theorem pathPolicyWrite_convergent_requires_derived
    (st : SysState) (d : FieldData)
    (hd : d.derived = false) (hc : d.convergent_encryption = true) :
    (pathPolicyWrite st d).resp =
      some (errorResponse
        "convergent encryption requires derivation to be enabled") ∧
    List.isPrefixOf "convergent encryption requires derivation".data
      "convergent encryption requires derivation to be enabled".data = true ∧
    (pathPolicyWrite st d).err = none ∧
    (pathPolicyWrite st d).st = st ∧
    (pathPolicyWrite st d).locksAcquired = 0 := by
  refine ⟨?_, by decide, ?_, ?_, ?_⟩ <;> simp [pathPolicyWrite, hd, hc]

/-- C2 witness: the theorem applied at a concrete request. -/
theorem pathPolicyWrite_convergent_requires_derived_witness :
    (({ name := "k", convergent_encryption := true } : FieldData).derived
        = false) ∧
    (({ name := "k", convergent_encryption := true } : FieldData).convergent_encryption
        = true) ∧
    ((pathPolicyWrite { storage := { policies := [] } }
        { name := "k", convergent_encryption := true }).resp =
      some (errorResponse
        "convergent encryption requires derivation to be enabled") ∧
    List.isPrefixOf "convergent encryption requires derivation".data
      "convergent encryption requires derivation to be enabled".data = true ∧
    (pathPolicyWrite { storage := { policies := [] } }
        { name := "k", convergent_encryption := true }).err = none ∧
    (pathPolicyWrite { storage := { policies := [] } }
        { name := "k", convergent_encryption := true }).st =
      { storage := { policies := [] } } ∧
    (pathPolicyWrite { storage := { policies := [] } }
        { name := "k", convergent_encryption := true }).locksAcquired = 0) :=
  ⟨rfl, rfl,
    pathPolicyWrite_convergent_requires_derived
      { storage := { policies := [] } }
      { name := "k", convergent_encryption := true } rfl rfl⟩

/-- C3 counterexample: a request whose type string `bogus` is unknown
but which also has `convergent = true, derived = false` is NOT
rejected with an invalid-request signal carrying the type string: the
convergence check fires first, the response message is the convergence
one (no mention of `bogus`) and the error value is `nil`, not
`ErrInvalidRequest`. -/
theorem pathPolicyWrite_unknown_type_not_always_reported :
    (pathPolicyWrite { storage := { policies := [] } }
        { name := "k", type := some "bogus",
          convergent_encryption := true }).err ≠
      some VaultErr.invalidRequest ∧
    (pathPolicyWrite { storage := { policies := [] } }
        { name := "k", type := some "bogus",
          convergent_encryption := true }).resp =
      some (errorResponse
        "convergent encryption requires derivation to be enabled") := by
  exact ⟨by decide, rfl⟩

/-- C3 amended: on every create-or-get request that does not trip the
convergent-without-derived check, an unrecognized type string is
rejected with `ErrInvalidRequest` and a message carrying the offending
string, before the lock manager or the store is touched. -/
theorem pathPolicyWrite_unknown_type_rejected
    (st : SysState) (d : FieldData)
    (hpass : d.derived = true ∨ d.convergent_encryption = false)
    (hty : keyTypeOf d.getType = none) :
    (pathPolicyWrite st d).resp =
      some (errorResponse ("unknown key type " ++ d.getType)) ∧
    (pathPolicyWrite st d).err = some VaultErr.invalidRequest ∧
    (pathPolicyWrite st d).st = st ∧
    (pathPolicyWrite st d).locksAcquired = 0 := by
  rcases hpass with h | h <;>
    refine ⟨?_, ?_, ?_, ?_⟩ <;> simp [pathPolicyWrite, h, hty]

/-- C3 witness: the amended theorem applied at a concrete request with
type string `bogus`. -/
theorem pathPolicyWrite_unknown_type_rejected_witness :
    (({ name := "k", type := some "bogus", derived := true } : FieldData).derived
        = true ∨
      ({ name := "k", type := some "bogus", derived := true } : FieldData).convergent_encryption
        = false) ∧
    keyTypeOf ({ name := "k", type := some "bogus",
                 derived := true } : FieldData).getType = none ∧
    ((pathPolicyWrite { storage := { policies := [] } }
        { name := "k", type := some "bogus", derived := true }).resp =
      some (errorResponse ("unknown key type " ++
        ({ name := "k", type := some "bogus",
           derived := true } : FieldData).getType)) ∧
    (pathPolicyWrite { storage := { policies := [] } }
        { name := "k", type := some "bogus", derived := true }).err =
      some VaultErr.invalidRequest ∧
    (pathPolicyWrite { storage := { policies := [] } }
        { name := "k", type := some "bogus", derived := true }).st =
      { storage := { policies := [] } } ∧
    (pathPolicyWrite { storage := { policies := [] } }
        { name := "k", type := some "bogus",
          derived := true }).locksAcquired = 0) :=
  ⟨Or.inl rfl, rfl,
    pathPolicyWrite_unknown_type_rejected
      { storage := { policies := [] } }
      { name := "k", type := some "bogus", derived := true }
      (Or.inl rfl) rfl⟩

/-- C4: validation order — when a request both violates
convergent-without-derived and carries an unrecognized type string,
the returned failure is the convergence validation error (and not the
unknown-key-type invalid-request signal, whose error value would be
`ErrInvalidRequest`). -/
theorem pathPolicyWrite_convergent_checked_first
    (st : SysState) (d : FieldData)
    (hd : d.derived = false) (hc : d.convergent_encryption = true)
    (hty : keyTypeOf d.getType = none) :
    (pathPolicyWrite st d).resp =
      some (errorResponse
        "convergent encryption requires derivation to be enabled") ∧
    (pathPolicyWrite st d).err ≠ some VaultErr.invalidRequest := by
  have := hty
  constructor <;> simp [pathPolicyWrite, hd, hc]

/-- C4 witness: the theorem applied at a concrete doubly-invalid
request. -/
theorem pathPolicyWrite_convergent_checked_first_witness :
    (({ name := "k", type := some "bogus",
        convergent_encryption := true } : FieldData).derived = false) ∧
    (({ name := "k", type := some "bogus",
        convergent_encryption := true } : FieldData).convergent_encryption
        = true) ∧
    keyTypeOf ({ name := "k", type := some "bogus",
                 convergent_encryption := true } : FieldData).getType = none ∧
    ((pathPolicyWrite { storage := { policies := [] } }
        { name := "k", type := some "bogus",
          convergent_encryption := true }).resp =
      some (errorResponse
        "convergent encryption requires derivation to be enabled") ∧
    (pathPolicyWrite { storage := { policies := [] } }
        { name := "k", type := some "bogus",
          convergent_encryption := true }).err ≠
      some VaultErr.invalidRequest) :=
  ⟨rfl, rfl, rfl,
    pathPolicyWrite_convergent_checked_first
      { storage := { policies := [] } }
      { name := "k", type := some "bogus", convergent_encryption := true }
      rfl rfl rfl⟩

/-- C5: reading a name for which no policy exists, when the lookup
itself does not fail, returns the empty result — no response data and
no error — distinguishable from an error. -/
theorem pathPolicyRead_absent_is_empty
    (st : SysState) (d : FieldData)
    (h : loadPolicy st d.name = .ok none) :
    (pathPolicyRead st d).resp = none ∧ (pathPolicyRead st d).err = none := by
  have h1 : loadPolicy { st with lmCalls := st.lmCalls + 1 } d.name =
      .ok none := h
  constructor <;>
    simp [pathPolicyRead, getPolicyShared, h1, readAfterGet]

/-- C5 witness: the theorem applied at a concrete state not containing
the requested name. -/
theorem pathPolicyRead_absent_is_empty_witness :
    loadPolicy { storage := { policies := [] } }
      ({ name := "nope" } : FieldData).name = .ok none ∧
    ((pathPolicyRead { storage := { policies := [] } }
        { name := "nope" }).resp = none ∧
     (pathPolicyRead { storage := { policies := [] } }
        { name := "nope" }).err = none) :=
  ⟨rfl, pathPolicyRead_absent_is_empty
          { storage := { policies := [] } } { name := "nope" } rfl⟩

/-- C6: a read whose non-empty context string fails base64 decoding is
rejected with the invalid-request error response "failed to
base64-decode context"; the stored policies and the cache are
unchanged, and `Policy.Map` (derivation) is never invoked. -/
theorem pathPolicyRead_bad_base64_rejected
    (st : SysState) (d : FieldData) (p : Policy)
    (hp : loadPolicy st d.name = .ok (some p))
    (hc : d.context.length ≠ 0)
    (hb : base64Decode d.context = none) :
    (pathPolicyRead st d).resp =
      some (errorResponse "failed to base64-decode context") ∧
    (pathPolicyRead st d).err = some VaultErr.invalidRequest ∧
    (pathPolicyRead st d).st.storage = st.storage ∧
    (pathPolicyRead st d).st.cache = st.cache ∧
    (pathPolicyRead st d).mapCalls = 0 := by
  have h1 : loadPolicy { st with lmCalls := st.lmCalls + 1 } d.name =
      .ok (some p) := hp
  refine ⟨?_, ?_, ?_, ?_, ?_⟩ <;>
    simp [pathPolicyRead, getPolicyShared, h1, readAfterGet, hc, hb]

/-- C6 witness: the theorem applied at a concrete state holding the
policy, with the undecodable context string `%%%%`. -/
theorem pathPolicyRead_bad_base64_rejected_witness :
    loadPolicy
      { storage := { policies := [("k",
          newPolicy { name := "k", keyType := .aes256gcm96,
                      derived := true, convergent := false,
                      exportable := false })] } }
      ({ name := "k", context := "%%%%" } : FieldData).name =
        .ok (some (newPolicy { name := "k", keyType := .aes256gcm96,
                               derived := true, convergent := false,
                               exportable := false })) ∧
    ({ name := "k", context := "%%%%" } : FieldData).context.length ≠ 0 ∧
    base64Decode ({ name := "k", context := "%%%%" } : FieldData).context
      = none ∧
    ((pathPolicyRead
        { storage := { policies := [("k",
            newPolicy { name := "k", keyType := .aes256gcm96,
                        derived := true, convergent := false,
                        exportable := false })] } }
        { name := "k", context := "%%%%" }).resp =
      some (errorResponse "failed to base64-decode context") ∧
    (pathPolicyRead
        { storage := { policies := [("k",
            newPolicy { name := "k", keyType := .aes256gcm96,
                        derived := true, convergent := false,
                        exportable := false })] } }
        { name := "k", context := "%%%%" }).err =
      some VaultErr.invalidRequest ∧
    (pathPolicyRead
        { storage := { policies := [("k",
            newPolicy { name := "k", keyType := .aes256gcm96,
                        derived := true, convergent := false,
                        exportable := false })] } }
        { name := "k", context := "%%%%" }).st.storage =
      { policies := [("k",
          newPolicy { name := "k", keyType := .aes256gcm96,
                      derived := true, convergent := false,
                      exportable := false })] } ∧
    (pathPolicyRead
        { storage := { policies := [("k",
            newPolicy { name := "k", keyType := .aes256gcm96,
                        derived := true, convergent := false,
                        exportable := false })] } }
        { name := "k", context := "%%%%" }).st.cache = [] ∧
    (pathPolicyRead
        { storage := { policies := [("k",
            newPolicy { name := "k", keyType := .aes256gcm96,
                        derived := true, convergent := false,
                        exportable := false })] } }
        { name := "k", context := "%%%%" }).mapCalls = 0) :=
  ⟨rfl, by decide, rfl,
    pathPolicyRead_bad_base64_rejected
      { storage := { policies := [("k",
          newPolicy { name := "k", keyType := .aes256gcm96,
                      derived := true, convergent := false,
                      exportable := false })] } }
      { name := "k", context := "%%%%" }
      (newPolicy { name := "k", keyType := .aes256gcm96,
                   derived := true, convergent := false,
                   exportable := false })
      rfl (by decide) rfl⟩

/-- C7: list-names is sourced from the durable storage collaborator's
`policy/` listing — when the listing succeeds the response is exactly
the stored names and no error; a listing failure propagates as an
error with no response; and the outcome depends only on the storage
component, never on the in-memory cache (two states with equal storage
yield equal outcomes, which also gives stability for a fixed storage
state). -/
theorem pathKeysList_from_storage
    (st st2 : SysState) (hsame : st.storage = st2.storage) :
    (st.storage.listFails = false →
      (pathKeysList st).resp =
        some (listResponse (st.storage.policies.map Prod.fst)) ∧
      (pathKeysList st).err = none) ∧
    (st.storage.listFails = true →
      (pathKeysList st).resp = none ∧
      (pathKeysList st).err.isSome = true) ∧
    (pathKeysList st).resp = (pathKeysList st2).resp ∧
    (pathKeysList st).err = (pathKeysList st2).err := by
  refine ⟨fun hf => ?_, fun hf => ?_, ?_, ?_⟩
  · constructor <;> simp [pathKeysList, hf]
  · constructor <;> simp [pathKeysList, hf]
  · simp only [pathKeysList, hsame]
    split <;> rfl
  · simp only [pathKeysList, hsame]
    split <;> rfl

/-- C7 witness: the theorem applied to two concrete states sharing the
same storage but holding different caches. -/
theorem pathKeysList_from_storage_witness :
    stListPlain.storage = stListCached.storage ∧
    ((stListPlain.storage.listFails = false →
      (pathKeysList stListPlain).resp =
        some (listResponse (stListPlain.storage.policies.map Prod.fst)) ∧
      (pathKeysList stListPlain).err = none) ∧
    (stListPlain.storage.listFails = true →
      (pathKeysList stListPlain).resp = none ∧
      (pathKeysList stListPlain).err.isSome = true) ∧
    (pathKeysList stListPlain).resp = (pathKeysList stListCached).resp ∧
    (pathKeysList stListPlain).err = (pathKeysList stListCached).err) :=
  ⟨rfl, pathKeysList_from_storage stListPlain stListCached rfl⟩

/-- C8: lock discipline — on every exit path of the create-or-get and
read handlers, and for every conceivable lock-manager outcome fed to
their continuations, the number of lock releases equals the number of
acquisitions (at most one), and a release happens exactly when a lock
was handed back; validation-failure exits acquire and release
nothing. -/
theorem handlers_release_every_acquired_lock :
    (∀ (st : SysState) (d : FieldData),
      (pathPolicyWrite st d).locksReleased =
        (pathPolicyWrite st d).locksAcquired ∧
      (pathPolicyWrite st d).locksAcquired ≤ 1) ∧
    (∀ (st : SysState) (d : FieldData),
      (pathPolicyRead st d).locksReleased =
        (pathPolicyRead st d).locksAcquired ∧
      (pathPolicyRead st d).locksAcquired ≤ 1) ∧
    (∀ (name : String) (st1 : SysState) (p : Option Policy)
        (lock upserted : Bool) (err : Option VaultErr),
      (writeAfterUpsert name st1 p lock upserted err).locksReleased =
        (writeAfterUpsert name st1 p lock upserted err).locksAcquired ∧
      (writeAfterUpsert name st1 p lock upserted err).locksAcquired =
        (if lock then 1 else 0)) ∧
    (∀ (d : FieldData) (st1 : SysState) (p : Option Policy)
        (lock : Bool) (err : Option VaultErr),
      (readAfterGet d st1 p lock err).locksReleased =
        (readAfterGet d st1 p lock err).locksAcquired ∧
      (readAfterGet d st1 p lock err).locksAcquired =
        (if lock then 1 else 0)) := by
  refine ⟨fun st d => ?_, fun st d => ?_,
          fun name st1 p lock upserted err =>
            writeAfterUpsert_locks name st1 p lock upserted err,
          fun d st1 p lock err => readAfterGet_locks d st1 p lock err⟩
  · simp only [pathPolicyWrite]
    split
    · exact ⟨rfl, Nat.zero_le 1⟩
    · split
      · exact ⟨rfl, Nat.zero_le 1⟩
      · rcases getPolicyUpsert st _ with ⟨p, lock, upserted, err, st1⟩
        rcases writeAfterUpsert_locks d.name st1 p lock upserted err with
          ⟨h1, h2⟩
        refine ⟨h1, ?_⟩
        show (writeAfterUpsert d.name st1 p lock upserted err).locksAcquired ≤ 1
        rw [h2]
        cases lock <;> simp
  · simp only [pathPolicyRead]
    rcases getPolicyShared st d.name with ⟨p, lock, err, st1⟩
    rcases readAfterGet_locks d st1 p lock err with ⟨h1, h2⟩
    refine ⟨h1, ?_⟩
    show (readAfterGet d st1 p lock err).locksAcquired ≤ 1
    rw [h2]
    cases lock <;> simp

/-- C9: under arbitrarily many interleaved create-or-get calls with
identical parameters on one name, any complete run of the modelled
racing system durably creates exactly one policy: the creation count
is one, exactly one caller reports `wasCreated = true`, the other
`k - 1` callers finish with `wasCreated = false`, and every finished
caller observed the single created policy `pol0`. -/
theorem createOrGet_single_creation (pol0 : Policy) (k : Nat) (s : CState)
    (hreach : Relation.ReflTransGen (Step pol0) (initState k) s)
    (hk : 1 ≤ k)
    (hdone : ∀ i : Nat, i < k → ∃ (w : Bool) (p : Policy),
      s.callers[i]? = some (CPhase.done w p)) :
    s.creations = 1 ∧
    s.store = some pol0 ∧
    countB isCreator s.callers = 1 ∧
    countB isDoneExisting s.callers = k - 1 ∧
    (∀ (i : Nat) (w : Bool) (p : Policy),
      s.callers[i]? = some (CPhase.done w p) → p = pol0) := by
  have hinv := inv_reach pol0 k s hreach
  obtain ⟨w0, p0, h0⟩ := hdone 0 hk
  have hstore : s.store = some pol0 := (hinv.obs 0 w0 p0 (Or.inr h0)).2
  have hcre : s.creations = 1 := by
    rw [hinv.count_store, hstore]
    rfl
  have hcount : countB isCreator s.callers = 1 := by
    rw [hinv.creators, hcre]
  refine ⟨hcre, hstore, hcount, ?_, ?_⟩
  · have hpart : ∀ a ∈ s.callers,
        (isCreator a = true ∧ isDoneExisting a = false) ∨
        (isCreator a = false ∧ isDoneExisting a = true) := by
      intro a ha
      obtain ⟨n, hn⟩ := List.mem_iff_getElem?.mp ha
      have hnk : n < k := by
        have hlen := (List.getElem?_eq_some.mp hn).1
        rw [hinv.len] at hlen
        exact hlen
      obtain ⟨w, p, hw⟩ := hdone n hnk
      have ha2 : a = CPhase.done w p := Option.some.inj (hn.symm.trans hw)
      subst ha2
      cases w
      · exact Or.inr ⟨rfl, rfl⟩
      · exact Or.inl ⟨rfl, rfl⟩
    have hlen := countB_add_eq_length isCreator isDoneExisting s.callers hpart
    rw [hinv.len, hcount] at hlen
    omega
  · intro i w p hi
    exact (hinv.obs i w p (Or.inr hi)).1

/-- C9 witness: a concrete two-caller race — caller 0 acquires the
lock, sees the name absent, creates and releases; caller 1 then
acquires, sees the existing policy and finishes with
`wasCreated = false` — satisfies the single-creation theorem. -/
theorem createOrGet_single_creation_witness :
    Relation.ReflTransGen (Step pol0W) (initState 2) concFinal ∧
    1 ≤ 2 ∧
    (∀ i : Nat, i < 2 → ∃ (w : Bool) (p : Policy),
      concFinal.callers[i]? = some (CPhase.done w p)) ∧
    (concFinal.creations = 1 ∧
     concFinal.store = some pol0W ∧
     countB isCreator concFinal.callers = 1 ∧
     countB isDoneExisting concFinal.callers = 2 - 1 ∧
     (∀ (i : Nat) (w : Bool) (p : Policy),
       concFinal.callers[i]? = some (CPhase.done w p) → p = pol0W)) := by
  have t1 : Step pol0W (initState 2)
      ⟨none, some 0, [CPhase.locked, CPhase.start], 0⟩ :=
    Step.acquire _ 0 rfl rfl
  have t2 : Step pol0W ⟨none, some 0, [CPhase.locked, CPhase.start], 0⟩
      ⟨none, some 0, [CPhase.sawAbsent, CPhase.start], 0⟩ :=
    Step.checkAbsent _ 0 rfl rfl rfl
  have t3 : Step pol0W ⟨none, some 0, [CPhase.sawAbsent, CPhase.start], 0⟩
      ⟨some pol0W, some 0, [CPhase.finishing true pol0W, CPhase.start], 1⟩ :=
    Step.create _ 0 rfl rfl
  have t4 : Step pol0W
      ⟨some pol0W, some 0, [CPhase.finishing true pol0W, CPhase.start], 1⟩
      ⟨some pol0W, none, [CPhase.done true pol0W, CPhase.start], 1⟩ :=
    Step.release _ 0 true pol0W rfl rfl
  have t5 : Step pol0W
      ⟨some pol0W, none, [CPhase.done true pol0W, CPhase.start], 1⟩
      ⟨some pol0W, some 1, [CPhase.done true pol0W, CPhase.locked], 1⟩ :=
    Step.acquire _ 1 rfl rfl
  have t6 : Step pol0W
      ⟨some pol0W, some 1, [CPhase.done true pol0W, CPhase.locked], 1⟩
      ⟨some pol0W, some 1,
        [CPhase.done true pol0W, CPhase.finishing false pol0W], 1⟩ :=
    Step.checkExisting _ 1 pol0W rfl rfl rfl
  have t7 : Step pol0W
      ⟨some pol0W, some 1,
        [CPhase.done true pol0W, CPhase.finishing false pol0W], 1⟩
      concFinal :=
    Step.release _ 1 false pol0W rfl rfl
  have hreach : Relation.ReflTransGen (Step pol0W) (initState 2) concFinal :=
    .tail (.tail (.tail (.tail (.tail (.tail (.tail .refl t1) t2) t3) t4) t5)
      t6) t7
  have hdone : ∀ i : Nat, i < 2 → ∃ (w : Bool) (p : Policy),
      concFinal.callers[i]? = some (CPhase.done w p) := by
    intro i hi
    interval_cases i
    · exact ⟨true, pol0W, rfl⟩
    · exact ⟨false, pol0W, rfl⟩
  exact ⟨hreach, by omega, hdone,
    createOrGet_single_creation pol0W 2 concFinal hreach (by omega) hdone⟩

/-- C10: when the `type` field is omitted, the framework's schema
default makes the request behave exactly as if `type = "aes256-gcm96"`
had been supplied: the two handler invocations are equal outputs. -/
theorem pathPolicyWrite_type_defaults_to_aes
    (st : SysState) (d : FieldData) (h : d.type = none) :
    pathPolicyWrite st d =
      pathPolicyWrite st { d with type := some "aes256-gcm96" } := by
  unfold pathPolicyWrite
  simp [FieldData.getType, h]

/-- C10 witness: the theorem applied at a concrete request omitting
the `type` field. -/
theorem pathPolicyWrite_type_defaults_to_aes_witness :
    ({ name := "k" } : FieldData).type = none ∧
    pathPolicyWrite { storage := { policies := [] } } { name := "k" } =
      pathPolicyWrite { storage := { policies := [] } }
        { ({ name := "k" } : FieldData) with type := some "aes256-gcm96" } :=
  ⟨rfl, pathPolicyWrite_type_defaults_to_aes
          { storage := { policies := [] } } { name := "k" } rfl⟩

end Transit
